import Mathlib

/-!
# recorder-ffmpeg: session store, shutdown sentinel and launcher

A shallow embedding of `record.go`.

* Go strings are Lean strings; Go's `int` is the 64-bit signed integer, held
  in an `Int`; a Go `error` result is an `Option GoError` (`none` is `nil`) and
  a pair of results is a Lean pair.
* The session directory is represented by the contents of the two files the
  program touches in it, `screenrec.pid` and `screenrec.kill`, and by whether
  the system refuses to write each of them.  Reading, `os.Stat` and `os.Remove`
  fail exactly when the file is absent.
* `strconv.Atoi` and `strconv.Itoa` are modelled at the level of bytes,
  including the syntax and range failures and the value returned with them.
* One call of `startRecording` runs against an environment that fixes the
  outcome of spawning and waiting for the worker, and the sequence of events
  (watcher ticks, interrupts, `stop` issued by another invocation) that occur
  while the call blocks; every event is applied atomically.
* The option loops of `main` index `os.Args` from 2; they are written as
  recursions over the remaining arguments, and an access past the end of
  `os.Args` is the result `none`.
-/

namespace Recorder

/-! ## Constants (record.go, lines 15-20) -/

/-- Name of the session-identity record. -/
def pidFileName : String := "screenrec.pid"

/-- Name of the shutdown sentinel. -/
def killFileName : String := "screenrec.kill"

/-! ## strconv -/

/-- The two failure kinds of the strconv parsers. -/
inductive NumErr where
  | ErrSyntax
  | ErrRange
  deriving DecidableEq, Repr

/-- Largest value of a uint64. -/
def maxUint64 : Nat := 2 ^ 64 - 1

/-- Byte value of a decimal digit character, as in `c - '0'`. -/
def digitVal (c : Char) : Nat := c.toNat - 48

/-- The loop of `strconv.ParseUint(s, 10, 64)`: bytes are consumed left to right;
a byte that is not a decimal digit ends the scan with a syntax error and value 0,
an accumulator that would leave the uint64 range ends it with a range error and
the maximal value. -/
def parseUintLoop : List Char → Nat → Nat × Option NumErr
  | [], n => (n, none)
  | c :: cs, n =>
    if c.isDigit = false then (0, some NumErr.ErrSyntax)
    else if n ≥ maxUint64 / 10 + 1 then (maxUint64, some NumErr.ErrRange)
    else
      let m := n * 10
      let n1 := (m + digitVal c) % 2 ^ 64
      if n1 < m ∨ n1 > maxUint64 then (maxUint64, some NumErr.ErrRange)
      else parseUintLoop cs n1

/-- Model of `strconv.ParseUint(s, 10, 64)`: the empty string is a syntax error. -/
def ParseUint (s : List Char) : Nat × Option NumErr :=
  match s with
  | [] => (0, some NumErr.ErrSyntax)
  | _ => parseUintLoop s 0

/-- Model of `strconv.ParseInt(s, 10, 0)` with a 64-bit `int`: an optional sign,
then an unsigned magnitude; the magnitude must fit the signed range. -/
def ParseInt (s : List Char) : Int × Option NumErr :=
  match s with
  | [] => (0, some NumErr.ErrSyntax)
  | c :: rest =>
    let neg := decide (c = '-')
    let body := if c = '+' ∨ c = '-' then rest else s
    match ParseUint body with
    | (_, some NumErr.ErrSyntax) => (0, some NumErr.ErrSyntax)
    | (un, _) =>
      if neg = false ∧ un ≥ 2 ^ 63 then ((2 : Int) ^ 63 - 1, some NumErr.ErrRange)
      else if neg = true ∧ un > 2 ^ 63 then (-(2 : Int) ^ 63, some NumErr.ErrRange)
      else (if neg then -(un : Int) else (un : Int), none)

/-- Model of `strconv.Atoi`: value and error of `ParseInt(s, 10, 0)` (the short
input fast path of the library computes the same pair). -/
def Atoi (s : String) : Int × Option NumErr := ParseInt s.data

/-- Decimal digit character of a value below ten. -/
def digitChar (d : Nat) : Char := Char.ofNat (48 + d)

/-- The digit loop of `strconv.formatBits` for base 10: digits are produced from
the least significant one and stored right to left; the first argument is the
remaining capacity of the buffer. -/
def formatBits : Nat → Nat → List Char → List Char
  | 0, _, acc => acc
  | cap + 1, u, acc =>
    if u < 10 then digitChar u :: acc
    else formatBits cap (u / 10) (digitChar (u % 10) :: acc)

/-- Model of `strconv.Itoa`: a minus sign for a negative value, then the decimal
digits of the magnitude, written into the 65 byte buffer of the library. -/
def Itoa (i : Int) : String :=
  if i < 0 then String.mk ('-' :: formatBits 64 i.natAbs [])
  else String.mk (formatBits 65 i.natAbs [])

/-! ## Decimal texts (the vocabulary of the stated properties) -/

/-- Value of a digit string read from an accumulator, without any range check. -/
def decVal (cs : List Char) (n : Nat) : Nat :=
  cs.foldl (fun a c => a * 10 + digitVal c) n

/-- Whether a text is an optionally signed, non-empty run of decimal digits. -/
def isDecimal (cs : List Char) : Bool :=
  match cs with
  | [] => false
  | c :: rest =>
    if c = '+' ∨ c = '-' then !rest.isEmpty && rest.all Char.isDigit
    else cs.all Char.isDigit

/-- The integer a decimal text denotes. -/
def decimalValue (cs : List Char) : Int :=
  match cs with
  | [] => 0
  | c :: rest =>
    if c = '-' then -(decVal rest 0 : Int)
    else if c = '+' then (decVal rest 0 : Int)
    else (decVal cs 0 : Int)

/-- Whether an integer is a value of Go's 64-bit `int`. -/
def inIntRange (i : Int) : Prop := -(2 : Int) ^ 63 ≤ i ∧ i < (2 : Int) ^ 63

instance (i : Int) : Decidable (inIntRange i) := by
  unfold inIntRange
  infer_instance

/-! ## Errors -/

/-- Error values the program can see. -/
inductive GoError where
  | ErrNotExist (name : String)
  | ErrPermission (name : String)
  | NumError (kind : NumErr)
  | ExecError (msg : String)
  | ExitError (code : Nat)
  | Wrapped (msg : String) (inner : GoError)
  deriving DecidableEq, Repr

/-! ## The session directory -/

/-- State of the session directory: content of `screenrec.pid` and of
`screenrec.kill`, each absent or present, and for each of the two paths the
error, if any, with which the system refuses to write it (a read-only file, a
directory in its place, a directory that is missing or not writable). -/
structure Dir where
  pidFile : Option String
  killFile : Option String
  pidWriteErr : Option GoError
  killWriteErr : Option GoError
  deriving DecidableEq, Repr

/-- The call `ioutil.WriteFile(pidFilePath(), data, 0644)`: creates or truncates
the file, unless the write is refused; a refused write changes nothing. -/
def writePidFile (data : String) (d : Dir) : Option GoError × Dir :=
  match d.pidWriteErr with
  | some err => (some err, d)
  | none => (none, { d with pidFile := some data })

/-- The call `ioutil.WriteFile(killFilePath(), data, 0644)`: creates or truncates
the file, unless the write is refused; a refused write changes nothing. -/
def writeKillFile (data : String) (d : Dir) : Option GoError × Dir :=
  match d.killWriteErr with
  | some err => (some err, d)
  | none => (none, { d with killFile := some data })

/-- The call `ioutil.ReadFile(pidFilePath())`. -/
def readPidFile (d : Dir) : String × Option GoError :=
  match d.pidFile with
  | some data => (data, none)
  | none => ("", some (GoError.ErrNotExist pidFileName))

/-- The call `os.Remove(pidFilePath())`. -/
def removePidFile (d : Dir) : Option GoError × Dir :=
  match d.pidFile with
  | some _ => (none, { d with pidFile := none })
  | none => (some (GoError.ErrNotExist pidFileName), d)

/-- The call `os.Stat(killFilePath())`, reduced to its error result. -/
def statKillFile (d : Dir) : Option GoError :=
  match d.killFile with
  | some _ => none
  | none => some (GoError.ErrNotExist killFileName)

/-- The call `os.Remove(killFilePath())`. -/
def removeKillFile (d : Dir) : Option GoError × Dir :=
  match d.killFile with
  | some _ => (none, { d with killFile := none })
  | none => (some (GoError.ErrNotExist killFileName), d)

/-- Source: `writePid` (lines 28-30). -/
def writePid (pid : Int) (d : Dir) : Option GoError × Dir :=
  writePidFile (Itoa pid) d

/-- Source: `readPid` (lines 32-38). -/
def readPid (d : Dir) : Int × Option GoError :=
  match readPidFile d with
  | (_, some err) => (0, some err)
  | (data, none) =>
    match Atoi data with
    | (n, none) => (n, none)
    | (n, some k) => (n, some (GoError.NumError k))

/-- Source: `removePid` (lines 40-42); the error of the removal is dropped. -/
def removePid (d : Dir) : Dir :=
  (removePidFile d).2

/-- Source: `stopRecording` (lines 115-124). -/
def stopRecording (d : Dir) : Option GoError × Dir :=
  match readPid d with
  | (_, some err) => (some (GoError.Wrapped "could not read PID file" err), d)
  | (_, none) =>
    match writeKillFile "" d with
    | (some err, d1) => (some (GoError.Wrapped "failed to create kill file" err), d1)
    | (none, d1) => (none, d1)

/-! ## One recording session (`startRecording`, lines 45-112) -/

/-- The worker command line (lines 46-60). -/
def ffmpegArgs (output : String) (fps duration : Int) : List String :=
  ["-y"] ++ (if duration > 0 then ["-t", Itoa duration] else []) ++
    ["-f", "gdigrab",
     "-framerate", Itoa fps,
     "-i", "desktop",
     "-f", "lavfi", "-i", "anullsrc=channel_layout=stereo:sample_rate=44100",
     "-c:v", "libx264", "-preset", "ultrafast", "-pix_fmt", "yuv420p",
     "-profile:v", "baseline", "-level", "4.1",
     "-c:a", "aac", "-b:a", "128k",
     "-movflags", "+faststart", "-shortest",
     output]

/-- State of one running session: the session directory, the writes made to the
worker's stdin pipe so far, and which of the two goroutines are still alive. -/
structure Session where
  dir : Dir
  stdin : List String
  watching : Bool
  listening : Bool
  deriving DecidableEq, Repr

/-- What can happen while the session blocks in `cmd.Wait()` or sleeps: the
watcher's ticker fires, an interrupt signal arrives, or another invocation of
the program runs `stopRecording` on the same directory. -/
inductive Event where
  | tick
  | interrupt
  | stop
  deriving DecidableEq, Repr

/-- One iteration of the kill file watcher (lines 96-103): if the stat of the
kill file succeeds, "q" is written to the worker, the kill file is removed and
the watcher returns; the result says whether the kill file was seen. -/
def watcherTick (s : Session) : Bool × Session :=
  match statKillFile s.dir with
  | none =>
    (true, { s with stdin := s.stdin ++ ["q"], dir := (removeKillFile s.dir).2,
                    watching := false })
  | some _ => (false, s)

/-- The interrupt goroutine (lines 86-90): the first signal writes "q". -/
def onInterrupt (s : Session) : Session :=
  { s with stdin := s.stdin ++ ["q"], listening := false }

/-- Effect of one event on a session. -/
def step (s : Session) : Event → Session
  | Event.tick => if s.watching then (watcherTick s).2 else s
  | Event.interrupt => if s.listening then onInterrupt s else s
  | Event.stop => { s with dir := (stopRecording s.dir).2 }

/-- Effect of a sequence of events, in order. -/
def runEvents (evs : List Event) (s : Session) : Session :=
  evs.foldl step s

/-- The environment of one call of `startRecording`: the results of
`cmd.StdinPipe()`, `cmd.Start()` (the worker's pid) and `cmd.Wait()`, and the
events that occur while waiting and during the final sleep. -/
structure Env where
  stdinPipe : Option GoError
  start : String → List String → Except GoError Int
  running : List Event
  wait : Option GoError
  settling : List Event

/-- A session state with no goroutine running. -/
def idle (d : Dir) : Session :=
  { dir := d, stdin := [], watching := false, listening := false }

/-- Lines 46-81 of `startRecording`: build the command, spawn the worker and
register its pid.  On success both goroutines are about to be started. -/
def launch (output : String) (fps duration : Int) (env : Env) (d : Dir) :
    Option GoError × Session :=
  let args := ffmpegArgs output fps duration
  match env.stdinPipe with
  | some err => (some (GoError.Wrapped "failed to get stdin pipe" err), idle d)
  | none =>
    match env.start "ffmpeg" args with
    | Except.error err => (some (GoError.Wrapped "failed to start ffmpeg" err), idle d)
    | Except.ok pid =>
      match writePid pid d with
      | (some err, d1) => (some (GoError.Wrapped "failed to write PID" err), idle d1)
      | (none, d1) =>
        (none, { dir := d1, stdin := [], watching := true, listening := true })

/-- Lines 83-111 of `startRecording`: wait for the worker; a wait error is
returned at once, otherwise the session sleeps and removes the pid file. -/
def supervise (env : Env) (s0 : Session) : Option GoError × Session :=
  let s1 := runEvents env.running s0
  match env.wait with
  | some err => (some (GoError.Wrapped "ffmpeg exit error" err), s1)
  | none =>
    let s2 := runEvents env.settling s1
    (none, { s2 with dir := removePid s2.dir })

/-- Source: `startRecording` (lines 45-112). -/
def startRecording (output : String) (fps duration : Int) (env : Env) (d : Dir) :
    Option GoError × Session :=
  match launch output fps duration env d with
  | (some err, s) => (some err, s)
  | (none, s0) => supervise env s0

/-! ## The command line (`main`, lines 126-212) -/

/-- Local variables of the `start` branch (lines 135-143). -/
structure StartOpts where
  output : String
  fps : Int
  duration : Int
  bg : Bool
  path : String
  reexecArgs : List String
  deriving DecidableEq, Repr

/-- Initial values of the `start` locals (lines 135-143). -/
def initStartOpts : StartOpts :=
  { output := "screen.mp4", fps := 15, duration := 0, bg := false, path := ".",
    reexecArgs := ["start"] }

/-- The option loop of `start` (lines 145-169) over the arguments from index 2
on.  `none` is the run-time failure of `os.Args[i]` with `i` past the end. -/
def parseStartLoop : List String → StartOpts → Option StartOpts
  | [], o => some o
  | a :: rest, o =>
    if a = "-fps" then
      match rest with
      | [] => none
      | v :: rest2 =>
        parseStartLoop rest2
          { o with fps := (Atoi v).1, reexecArgs := o.reexecArgs ++ ["-fps", v] }
    else if a = "-duration" then
      match rest with
      | [] => none
      | v :: rest2 =>
        parseStartLoop rest2
          { o with duration := (Atoi v).1, reexecArgs := o.reexecArgs ++ ["-duration", v] }
    else if a = "-output" then
      match rest with
      | [] => none
      | v :: rest2 =>
        parseStartLoop rest2
          { o with output := v, reexecArgs := o.reexecArgs ++ ["-output", v] }
    else if a = "-bg" then
      parseStartLoop rest { o with bg := true }
    else if a = "--path" then
      match rest with
      | [] => none
      | v :: rest2 =>
        parseStartLoop rest2
          { o with path := v, reexecArgs := o.reexecArgs ++ ["--path", v] }
    else parseStartLoop rest o

/-- The option loop of `stop` (lines 193-200). -/
def parseStopLoop : List String → String → Option String
  | [], path => some path
  | a :: rest, path =>
    if a = "--path" then
      match rest with
      | [] => none
      | v :: rest2 => parseStopLoop rest2 v
    else parseStopLoop rest path

/-- Option parsing of `start` applied to a whole `os.Args`. -/
def parseStart (osArgs : List String) : Option StartOpts :=
  parseStartLoop (osArgs.drop 2) initStartOpts

/-- The `os.Args` of the process created by `exec.Command(os.Args[0], reexecArgs...)`. -/
def reexecArgv (prog : String) (o : StartOpts) : List String :=
  prog :: o.reexecArgs

/-- How a run of `main` ends. -/
inductive Outcome where
  | exit (code : Nat)
  | returned
  | indexOutOfRange
  deriving DecidableEq, Repr

/-- Exit status of the process: `main` returning gives 0, a run-time failure
gives 2. -/
def Outcome.status : Outcome → Nat
  | Outcome.exit code => code
  | Outcome.returned => 0
  | Outcome.indexOutOfRange => 2

/-- The environment of one run of `main`: the result of starting the detached
copy of the program, and the environment of a foreground session. -/
structure MainEnv where
  selfStart : String → List String → Except GoError Int
  session : Env

/-- Source: `main` (lines 126-212).  The file system maps the value of
`pidKillDir` to the state of that directory. -/
def main (osArgs : List String) (env : MainEnv) (fs : String → Dir) :
    Outcome × (String → Dir) :=
  match osArgs with
  | [] => (Outcome.exit 1, fs)
  | [_] => (Outcome.exit 1, fs)
  | prog :: cmd :: opts =>
    if cmd = "start" then
      match parseStartLoop opts initStartOpts with
      | none => (Outcome.indexOutOfRange, fs)
      | some o =>
        if o.bg then
          match env.selfStart prog o.reexecArgs with
          | Except.error _ => (Outcome.exit 1, fs)
          | Except.ok _ => (Outcome.exit 0, fs)
        else
          match startRecording o.output o.fps o.duration env.session (fs o.path) with
          | (some _, s) => (Outcome.exit 1, Function.update fs o.path s.dir)
          | (none, s) => (Outcome.returned, Function.update fs o.path s.dir)
    else if cmd = "stop" then
      match parseStopLoop opts "." with
      | none => (Outcome.indexOutOfRange, fs)
      | some path =>
        match stopRecording (fs path) with
        | (some _, d) => (Outcome.exit 1, Function.update fs path d)
        | (none, d) => (Outcome.returned, Function.update fs path d)
    else (Outcome.exit 1, fs)

/-! ## Vocabulary for the properties of the command line -/

/-- The options of `start` that take a value. -/
def startValueOpts : List String := ["-fps", "-duration", "-output", "--path"]

/-- The recognized option/value pairs of a `start` argument list, in order of
appearance: reading from the left, a value-taking option takes the next
argument as its value, whatever that argument is; `-bg` and unknown arguments
carry no pair.  The result is `none` when a value-taking option is the last
argument, with no value following it. -/
def optionPairs : List String → Option (List (String × String))
  | [] => some []
  | a :: rest =>
    if a ∈ startValueOpts then
      match rest with
      | [] => none
      | v :: rest2 => (optionPairs rest2).map (fun ps => (a, v) :: ps)
    else optionPairs rest

/-- Whether `-bg` occurs as an option (not as the value of another option). -/
def bgRequested : List String → Bool
  | [] => false
  | a :: rest =>
    if a ∈ startValueOpts then
      match rest with
      | [] => false
      | _ :: rest2 => bgRequested rest2
    else decide (a = "-bg") || bgRequested rest

/-- The argument list that spells out option/value pairs. -/
def flattenPairs : List (String × String) → List String
  | [] => []
  | (a, v) :: ps => a :: v :: flattenPairs ps

/-- The value given by the last pair for option `name`, if there is one. -/
def lastValue (name : String) : List (String × String) → Option String
  | [] => none
  | (a, v) :: ps =>
    match lastValue name ps with
    | some x => some x
    | none => if a = name then some v else none

/-- The settings that an argument list with the given pairs asks for, starting
from the settings `o`: the last value given for each option, `Atoi` applied to
the numeric ones, and all pairs appended to the re-exec list. -/
def expectedOpts (o : StartOpts) (opts : List String) (pairs : List (String × String)) :
    StartOpts :=
  { output := (lastValue "-output" pairs).getD o.output,
    fps := ((lastValue "-fps" pairs).map (fun v => (Atoi v).1)).getD o.fps,
    duration := ((lastValue "-duration" pairs).map (fun v => (Atoi v).1)).getD o.duration,
    bg := o.bg || bgRequested opts,
    path := (lastValue "--path" pairs).getD o.path,
    reexecArgs := o.reexecArgs ++ flattenPairs pairs }

/-- Every occurrence of a value-taking option in the list has a successor. -/
def FollowedByValue (opts : List String) : Prop :=
  ∀ i a, opts[i]? = some a → a ∈ startValueOpts → i + 1 < opts.length

/-- The assignments made by the case of a value-taking option `a` with value `v`
(lines 147-165). -/
def applyValue (a v : String) (o : StartOpts) : StartOpts :=
  if a = "-fps" then
    { o with fps := (Atoi v).1, reexecArgs := o.reexecArgs ++ ["-fps", v] }
  else if a = "-duration" then
    { o with duration := (Atoi v).1, reexecArgs := o.reexecArgs ++ ["-duration", v] }
  else if a = "-output" then
    { o with output := v, reexecArgs := o.reexecArgs ++ ["-output", v] }
  else
    { o with path := v, reexecArgs := o.reexecArgs ++ ["--path", v] }

/-! ## Lemmas on the strconv model -/

theorem digitChar_isDigit (d : Nat) (h : d < 10) : (digitChar d).isDigit = true := by
  interval_cases d <;> decide

theorem digitVal_digitChar (d : Nat) (h : d < 10) : digitVal (digitChar d) = d := by
  interval_cases d <;> decide

theorem digitVal_lt (c : Char) (h : c.isDigit = true) : digitVal c < 10 := by
  unfold digitVal
  simp only [Char.isDigit, Bool.and_eq_true, decide_eq_true_eq] at h
  have h2 : c.val.toNat ≤ 57 := h.2
  show c.val.toNat - 48 < 10
  omega

theorem isDigit_ne_minus (c : Char) (h : c.isDigit = true) : c ≠ '-' := by
  intro hc
  subst hc
  exact absurd h (by decide)

theorem isDigit_ne_plus (c : Char) (h : c.isDigit = true) : c ≠ '+' := by
  intro hc
  subst hc
  exact absurd h (by decide)

theorem decVal_cons (c : Char) (cs : List Char) (n : Nat) :
    decVal (c :: cs) n = decVal cs (n * 10 + digitVal c) := rfl

theorem le_decVal (cs : List Char) (n : Nat) : n ≤ decVal cs n := by
  induction cs generalizing n with
  | nil => exact Nat.le_refl _
  | cons c cs ih =>
    rw [decVal_cons]
    have := ih (n * 10 + digitVal c)
    omega

theorem parseUintLoop_digits (cs : List Char) (n : Nat)
    (hd : ∀ c ∈ cs, c.isDigit = true) (hr : decVal cs n ≤ maxUint64) :
    parseUintLoop cs n = (decVal cs n, none) := by
  induction cs generalizing n with
  | nil => rfl
  | cons c cs ih =>
    have hc : c.isDigit = true := hd c (List.mem_cons_self _ _)
    have hv := digitVal_lt c hc
    rw [decVal_cons] at hr ⊢
    have hle := le_decVal cs (n * 10 + digitVal c)
    have hmax : maxUint64 = 18446744073709551615 := by decide
    rw [hmax] at hr
    have hstep : parseUintLoop (c :: cs) n = parseUintLoop cs (n * 10 + digitVal c) := by
      simp only [parseUintLoop, hc, hmax]
      have e : (n * 10 + digitVal c) % 2 ^ 64 = n * 10 + digitVal c :=
        Nat.mod_eq_of_lt (by omega)
      rw [e]
      simp only [ge_iff_le, gt_iff_lt, Bool.true_eq_false, ↓reduceIte]
      rw [if_neg (by omega), if_neg (by omega)]
    rw [hstep]
    exact ih _ (fun x hx => hd x (List.mem_cons_of_mem _ hx)) (by rw [hmax]; exact hr)

theorem parseUintLoop_ok_digits (cs : List Char) (n : Nat)
    (h : (parseUintLoop cs n).2 = none) : ∀ c ∈ cs, c.isDigit = true := by
  induction cs generalizing n with
  | nil => intro c hc; cases hc
  | cons c cs ih =>
    unfold parseUintLoop at h
    by_cases hc : c.isDigit = false
    · rw [if_pos hc] at h
      cases h
    · rw [if_neg hc] at h
      by_cases h1 : n ≥ maxUint64 / 10 + 1
      · rw [if_pos h1] at h
        cases h
      · rw [if_neg h1] at h
        by_cases h2 : (n * 10 + digitVal c) % 2 ^ 64 < n * 10 ∨
            (n * 10 + digitVal c) % 2 ^ 64 > maxUint64
        · simp only [h2, if_true] at h
          cases h
        · simp only [h2, if_false] at h
          intro x hx
          rcases List.mem_cons.mp hx with rfl | hx
          · simpa using hc
          · exact ih _ h x hx

theorem decVal_append (xs ys : List Char) (n : Nat) :
    decVal (xs ++ ys) n = decVal ys (decVal xs n) := by
  simp [decVal, List.foldl_append]

theorem formatBits_spec (cap u : Nat) (acc : List Char) (h : u < 10 ^ (cap + 1)) :
    ∃ ds, formatBits (cap + 1) u acc = ds ++ acc ∧ ds ≠ [] ∧
      (∀ c ∈ ds, c.isDigit = true) ∧ decVal ds 0 = u := by
  induction cap generalizing u acc with
  | zero =>
    have hu : u < 10 := by simpa using h
    refine ⟨[digitChar u], ?_, by simp, ?_, ?_⟩
    · simp [formatBits, hu]
    · intro c hc
      rw [List.mem_singleton.mp hc]
      exact digitChar_isDigit u hu
    · simp [decVal, digitVal_digitChar u hu]
  | succ cap ih =>
    by_cases hu : u < 10
    · refine ⟨[digitChar u], ?_, by simp, ?_, ?_⟩
      · simp [formatBits, hu]
      · intro c hc
        rw [List.mem_singleton.mp hc]
        exact digitChar_isDigit u hu
      · simp [decVal, digitVal_digitChar u hu]
    · have hdiv : u / 10 < 10 ^ (cap + 1) := by
        apply Nat.div_lt_of_lt_mul
        rw [pow_succ] at h
        omega
      obtain ⟨ds, hds, hne, hdig, hval⟩ := ih (u / 10) (digitChar (u % 10) :: acc) hdiv
      have hm : u % 10 < 10 := Nat.mod_lt _ (by decide)
      refine ⟨ds ++ [digitChar (u % 10)], ?_, by simp, ?_, ?_⟩
      · rw [formatBits, if_neg hu, hds]
        simp
      · intro c hc
        rcases List.mem_append.mp hc with hc | hc
        · exact hdig c hc
        · rw [List.mem_singleton.mp hc]
          exact digitChar_isDigit _ hm
      · rw [decVal_append, hval]
        simp only [decVal, List.foldl_cons, List.foldl_nil, digitVal_digitChar _ hm]
        omega

theorem ParseUint_digits (cs : List Char) (hne : cs ≠ [])
    (hd : ∀ c ∈ cs, c.isDigit = true) (hr : decVal cs 0 ≤ maxUint64) :
    ParseUint cs = (decVal cs 0, none) := by
  cases cs with
  | nil => exact absurd rfl hne
  | cons c cs => exact parseUintLoop_digits (c :: cs) 0 hd hr

theorem ParseUint_ok_digits (cs : List Char) (h : (ParseUint cs).2 = none) :
    cs ≠ [] ∧ ∀ c ∈ cs, c.isDigit = true := by
  cases cs with
  | nil => cases h
  | cons c cs => exact ⟨by simp, parseUintLoop_ok_digits (c :: cs) 0 h⟩

theorem all_isDigit_iff (cs : List Char) :
    cs.all Char.isDigit = true ↔ ∀ c ∈ cs, c.isDigit = true := by
  simp [List.all_eq_true]

theorem parseUintLoop_range (cs : List Char) (n un : Nat)
    (h : parseUintLoop cs n = (un, some NumErr.ErrRange)) : un = maxUint64 := by
  induction cs generalizing n with
  | nil => cases h
  | cons c cs ih =>
    unfold parseUintLoop at h
    by_cases hc : c.isDigit = false
    · rw [if_pos hc] at h
      cases h
    · rw [if_neg hc] at h
      by_cases h1 : n ≥ maxUint64 / 10 + 1
      · rw [if_pos h1] at h
        exact (congrArg Prod.fst h).symm
      · rw [if_neg h1] at h
        by_cases h2 : (n * 10 + digitVal c) % 2 ^ 64 < n * 10 ∨
            (n * 10 + digitVal c) % 2 ^ 64 > maxUint64
        · simp only [h2, if_true] at h
          exact (congrArg Prod.fst h).symm
        · simp only [h2, if_false] at h
          exact ih _ h

theorem ParseUint_range (cs : List Char) (un : Nat)
    (h : ParseUint cs = (un, some NumErr.ErrRange)) : un = maxUint64 := by
  cases cs with
  | nil => cases h
  | cons c cs => exact parseUintLoop_range (c :: cs) 0 un h

theorem ParseInt_decimal (cs : List Char) (hdec : isDecimal cs = true)
    (hr : inIntRange (decimalValue cs)) : ParseInt cs = (decimalValue cs, none) := by
  cases cs with
  | nil => cases hdec
  | cons c rest =>
    obtain ⟨hlo, hhi⟩ := hr
    have hmax : maxUint64 = 18446744073709551615 := by decide
    by_cases hm : c = '-'
    · subst hm
      simp only [isDecimal, or_true, if_true, Bool.and_eq_true, Bool.not_eq_true',
        List.isEmpty_eq_false] at hdec
      simp only [decimalValue, if_true] at hlo hhi ⊢
      have hu : ParseUint rest = (decVal rest 0, none) :=
        ParseUint_digits rest (by simpa using hdec.1) ((all_isDigit_iff rest).mp hdec.2)
          (by rw [hmax]; omega)
      simp only [ParseInt, or_true, if_true, hu, decide_True]
      rw [if_neg (by simp), if_neg (by simp; omega)]
    · by_cases hp : c = '+'
      · subst hp
        simp only [isDecimal, true_or, if_true, Bool.and_eq_true, Bool.not_eq_true',
          List.isEmpty_eq_false] at hdec
        simp only [decimalValue, if_neg hm, if_true] at hlo hhi ⊢
        have hu : ParseUint rest = (decVal rest 0, none) :=
          ParseUint_digits rest (by simpa using hdec.1) ((all_isDigit_iff rest).mp hdec.2)
            (by rw [hmax]; omega)
        simp only [ParseInt, true_or, if_true, hu, hm, decide_False]
        rw [if_neg (by simp; omega), if_neg (by simp)]
        simp
      · have hn : ¬ (c = '+' ∨ c = '-') := by simp [hm, hp]
        simp only [isDecimal, if_neg hn] at hdec
        simp only [decimalValue, if_neg hm, if_neg hp] at hlo hhi ⊢
        have hu : ParseUint (c :: rest) = (decVal (c :: rest) 0, none) :=
          ParseUint_digits (c :: rest) (by simp) ((all_isDigit_iff _).mp hdec)
            (by rw [hmax]; omega)
        simp only [ParseInt, hm, hp, or_self, if_false, hu, decide_False]
        rw [if_neg (by simp; omega), if_neg (by simp)]
        simp

theorem ParseInt_ok_ParseUint (c : Char) (body : List Char)
    (h : (match ParseUint body with
      | (_, some NumErr.ErrSyntax) => ((0 : Int), some NumErr.ErrSyntax)
      | (un, _) =>
        if decide (c = '-') = false ∧ un ≥ 2 ^ 63 then
          ((2 : Int) ^ 63 - 1, some NumErr.ErrRange)
        else if decide (c = '-') = true ∧ un > 2 ^ 63 then
          (-(2 : Int) ^ 63, some NumErr.ErrRange)
        else (if decide (c = '-') then -(un : Int) else (un : Int), none)).2 = none) :
    (ParseUint body).2 = none := by
  rcases hpu : ParseUint body with ⟨un, _ | _ | _⟩
  · rfl
  · rw [hpu] at h; cases h
  · rw [hpu] at h
    have hun := ParseUint_range body un hpu
    have hmax : maxUint64 = 18446744073709551615 := by decide
    rw [hmax] at hun
    subst hun
    simp only at h
    by_cases hc : c = '-'
    · simp [hc] at h
    · simp [hc] at h

theorem ParseInt_ok_decimal (cs : List Char) (h : (ParseInt cs).2 = none) :
    isDecimal cs = true := by
  cases cs with
  | nil => cases h
  | cons c rest =>
    simp only [ParseInt] at h
    have hu := ParseInt_ok_ParseUint c _ h
    by_cases hs : c = '+' ∨ c = '-'
    · simp only [if_pos hs] at hu
      obtain ⟨hne, hdig⟩ := ParseUint_ok_digits rest hu
      simp only [isDecimal, if_pos hs, Bool.and_eq_true, Bool.not_eq_true',
        List.isEmpty_eq_false]
      exact ⟨by simpa using hne, (all_isDigit_iff rest).mpr hdig⟩
    · simp only [if_neg hs] at hu
      obtain ⟨_, hdig⟩ := ParseUint_ok_digits (c :: rest) hu
      simp only [isDecimal, if_neg hs]
      exact (all_isDigit_iff _).mpr hdig

theorem Itoa_decimal (i : Int) (h : inIntRange i) :
    isDecimal (Itoa i).data = true ∧ decimalValue (Itoa i).data = i := by
  obtain ⟨hlo, hhi⟩ := h
  by_cases hneg : i < 0
  · have hb : i.natAbs < 10 ^ (63 + 1) := by
      have : i.natAbs ≤ 2 ^ 63 := by omega
      exact lt_of_le_of_lt this (by norm_num)
    obtain ⟨ds, hds, hne, hdig, hval⟩ := formatBits_spec 63 i.natAbs [] hb
    rw [List.append_nil] at hds
    simp only [Itoa, if_pos hneg, hds]
    constructor
    · simp only [isDecimal, or_true, if_true, Bool.and_eq_true, Bool.not_eq_true',
        List.isEmpty_eq_false]
      exact ⟨by simpa using hne, (all_isDigit_iff ds).mpr hdig⟩
    · simp only [decimalValue, if_true, hval]
      omega
  · have hb : i.natAbs < 10 ^ (64 + 1) := by
      have : i.natAbs < 2 ^ 63 := by omega
      exact lt_trans this (by norm_num)
    obtain ⟨ds, hds, hne, hdig, hval⟩ := formatBits_spec 64 i.natAbs [] hb
    rw [List.append_nil] at hds
    simp only [Itoa, if_neg hneg, hds]
    cases ds with
    | nil => exact absurd rfl hne
    | cons c rest =>
      have hc : c.isDigit = true := hdig c (List.mem_cons_self _ _)
      have hm := isDigit_ne_minus c hc
      have hp := isDigit_ne_plus c hc
      constructor
      · simp only [isDecimal, hm, hp, or_self, if_false]
        exact (all_isDigit_iff _).mpr hdig
      · simp only [decimalValue, if_neg hm, if_neg hp, hval]
        omega

theorem Atoi_Itoa (i : Int) (h : inIntRange i) : Atoi (Itoa i) = (i, none) := by
  obtain ⟨hdec, hval⟩ := Itoa_decimal i h
  have := ParseInt_decimal (Itoa i).data hdec (by rw [hval]; exact h)
  rw [hval] at this
  exact this

theorem readPid_of_Atoi (d : Dir) (s : String) (n : Int) (hs : d.pidFile = some s)
    (ha : Atoi s = (n, none)) : readPid d = (n, none) := by
  simp [readPid, readPidFile, hs, ha]

theorem readPid_ok_inv (d : Dir) (h : (readPid d).2 = none) :
    ∃ s, d.pidFile = some s ∧ (Atoi s).2 = none := by
  rcases hp : d.pidFile with _ | s
  · simp [readPid, readPidFile, hp] at h
  · refine ⟨s, rfl, ?_⟩
    rcases ha : Atoi s with ⟨n, _ | k⟩
    · rfl
    · simp [readPid, readPidFile, hp, ha] at h

theorem stopRecording_of_readPid_ok (d : Dir) (h : (readPid d).2 = none)
    (hw : d.killWriteErr = none) :
    stopRecording d = (none, { d with killFile := some "" }) := by
  rcases hr : readPid d with ⟨n, _ | e⟩
  · simp [stopRecording, hr, writeKillFile, hw]
  · rw [hr] at h
    cases h

theorem stopRecording_refused (d : Dir) (e : GoError) (h : (readPid d).2 = none)
    (hw : d.killWriteErr = some e) :
    stopRecording d = (some (GoError.Wrapped "failed to create kill file" e), d) := by
  rcases hr : readPid d with ⟨n, _ | e1⟩
  · simp [stopRecording, hr, writeKillFile, hw]
  · rw [hr] at h
    cases h

theorem stopRecording_of_readPid_err (d : Dir) (e : GoError) (h : (readPid d).2 = some e) :
    stopRecording d = (some (GoError.Wrapped "could not read PID file" e), d) := by
  rcases hr : readPid d with ⟨n, _ | e1⟩
  · rw [hr] at h
    cases h
  · rw [hr] at h
    cases h
    simp [stopRecording, hr]

/-! ## The session store and the sentinel -/

theorem watcherTick_present (s : Session) (c : String) (h : s.dir.killFile = some c) :
    watcherTick s =
      (true, { s with stdin := s.stdin ++ ["q"],
                      dir := { s.dir with killFile := none }, watching := false }) := by
  simp [watcherTick, statKillFile, removeKillFile, h]

theorem watcherTick_absent (s : Session) (h : s.dir.killFile = none) :
    watcherTick s = (false, s) := by
  simp [watcherTick, statKillFile, h]

/-- C2: if the pid file is absent, or present with a content that is not a
well-formed decimal integer, `stopRecording` returns the "could not read PID
file" error and leaves the directory as it was; no sentinel is created. -/
theorem stopRecording_without_record (d : Dir)
    (h : d.pidFile = none ∨ ∃ text, d.pidFile = some text ∧ isDecimal text.data = false) :
    ∃ err, stopRecording d = (some (GoError.Wrapped "could not read PID file" err), d) := by
  have hr : ∃ err, (readPid d).2 = some err := by
    rcases h with h | ⟨text, ht, hbad⟩
    · exact ⟨GoError.ErrNotExist pidFileName, by simp [readPid, readPidFile, h]⟩
    · rcases hres : (readPid d).2 with _ | err
      · obtain ⟨t2, ht2, hok⟩ := readPid_ok_inv d hres
        rw [ht] at ht2
        cases ht2
        have := ParseInt_ok_decimal text.data hok
        rw [hbad] at this
        cases this
      · exact ⟨err, rfl⟩
  obtain ⟨err, herr⟩ := hr
  exact ⟨err, stopRecording_of_readPid_err d err herr⟩

/-- Witness of `stopRecording_without_record`: a pid file holding "12a". -/
theorem stopRecording_without_record_witness :
    ∃ err, stopRecording { pidFile := some "12a", killFile := none, pidWriteErr := none,
                           killWriteErr := none } =
      (some (GoError.Wrapped "could not read PID file" err),
       { pidFile := some "12a", killFile := none, pidWriteErr := none,
         killWriteErr := none }) :=
  stopRecording_without_record
    { pidFile := some "12a", killFile := none, pidWriteErr := none, killWriteErr := none }
    (Or.inr ⟨"12a", rfl, by decide⟩)

/-- C5: for every pid of type `int` and every prior directory state, after a
successful `writePid pid` the pid file holds exactly the decimal text of `pid`
(whatever it held before), nothing else has changed, and `readPid` returns
`pid` with no error. -/
theorem writePid_then_readPid (pid : Int) (d d1 : Dir) (hpid : inIntRange pid)
    (hw : writePid pid d = (none, d1)) :
    readPid d1 = (pid, none) ∧
    d1 = { d with pidFile := some (Itoa pid) } ∧
    isDecimal (Itoa pid).data = true ∧ decimalValue (Itoa pid).data = pid ∧
    Atoi (Itoa pid) = (pid, none) := by
  have hd1 : d1 = { d with pidFile := some (Itoa pid) } := by
    simp only [writePid, writePidFile] at hw
    rcases he : d.pidWriteErr with _ | e
    · rw [he] at hw
      simp only [Prod.mk.injEq, true_and] at hw
      exact hw.symm
    · rw [he] at hw
      simp at hw
  have hat := Atoi_Itoa pid hpid
  obtain ⟨hdec, hval⟩ := Itoa_decimal pid hpid
  refine ⟨?_, hd1, hdec, hval, hat⟩
  exact readPid_of_Atoi d1 (Itoa pid) pid (by rw [hd1]) hat

/-- Witness of `writePid_then_readPid`: pid 4242 over a stale record. -/
theorem writePid_then_readPid_witness :
    readPid { pidFile := some "4242", killFile := some "", pidWriteErr := none,
              killWriteErr := none } = (4242, none) ∧
    ({ pidFile := some "4242", killFile := some "", pidWriteErr := none,
       killWriteErr := none } : Dir) =
      { ({ pidFile := some "stale 17", killFile := some "", pidWriteErr := none,
           killWriteErr := none } : Dir) with pidFile := some (Itoa 4242) } ∧
    isDecimal (Itoa 4242).data = true ∧ decimalValue (Itoa 4242).data = 4242 ∧
    Atoi (Itoa 4242) = (4242, none) :=
  writePid_then_readPid 4242
    { pidFile := some "stale 17", killFile := some "", pidWriteErr := none,
      killWriteErr := none }
    { pidFile := some "4242", killFile := some "", pidWriteErr := none,
      killWriteErr := none } (by decide) (by decide)

/-- C9, as stated, fails: the pid file "4242" is resolvable, the system refuses
to write `screenrec.kill`, and `stopRecording` fails with "failed to create
kill file". -/
theorem stopRecording_refused_with_record :
    (readPid { pidFile := some "4242", killFile := none, pidWriteErr := none,
               killWriteErr := some (GoError.ErrPermission killFileName) }).2 = none ∧
    (stopRecording { pidFile := some "4242", killFile := none, pidWriteErr := none,
                     killWriteErr := some (GoError.ErrPermission killFileName) }).1 =
      some (GoError.Wrapped "failed to create kill file"
             (GoError.ErrPermission killFileName)) := by
  decide

/-- C9 (amended): with a resolvable pid file and a `screenrec.kill` that the
system does not refuse to write, running `stopRecording` twice in a row
succeeds both times and leaves the directory exactly as a single run does: one
empty sentinel, everything else unchanged. -/
theorem stopRecording_twice (d : Dir) (h : (readPid d).2 = none)
    (hwr : d.killWriteErr = none) :
    (stopRecording d).1 = none ∧
    stopRecording (stopRecording d).2 = (none, (stopRecording d).2) ∧
    (stopRecording d).2 = { d with killFile := some "" } := by
  have h1 := stopRecording_of_readPid_ok d h hwr
  obtain ⟨text, ht, hok⟩ := readPid_ok_inv d h
  have h2 : (readPid { d with killFile := some "" }).2 = none := by
    rcases ha : Atoi text with ⟨n, e⟩
    rw [ha] at hok
    simp only at hok
    subst hok
    rw [readPid_of_Atoi { d with killFile := some "" } text n ht ha]
  have h3 := stopRecording_of_readPid_ok { d with killFile := some "" } h2 hwr
  rw [h1]
  exact ⟨rfl, h3, rfl⟩

/-- Witness of the amended C9: pid file "4242", a sentinel already pending. -/
theorem stopRecording_twice_witness :
    (stopRecording { pidFile := some "4242", killFile := some "", pidWriteErr := none,
                     killWriteErr := none }).1 = none ∧
    stopRecording (stopRecording { pidFile := some "4242", killFile := some "",
                                   pidWriteErr := none, killWriteErr := none }).2 =
      (none, (stopRecording { pidFile := some "4242", killFile := some "",
                              pidWriteErr := none, killWriteErr := none }).2) ∧
    (stopRecording { pidFile := some "4242", killFile := some "", pidWriteErr := none,
                     killWriteErr := none }).2 =
      { pidFile := some "4242", killFile := some "", pidWriteErr := none,
        killWriteErr := none } :=
  stopRecording_twice
    { pidFile := some "4242", killFile := some "", pidWriteErr := none,
      killWriteErr := none } (by decide) rfl

/-! ## One recording session -/

theorem stopRecording_pidFile (d : Dir) : (stopRecording d).2.pidFile = d.pidFile := by
  rcases hr : (readPid d).2 with _ | e
  · rcases hw : d.killWriteErr with _ | we
    · rw [stopRecording_of_readPid_ok d hr hw]
    · rw [stopRecording_refused d we hr hw]
  · rw [stopRecording_of_readPid_err d e hr]

theorem step_pidFile (s : Session) (ev : Event) : (step s ev).dir.pidFile = s.dir.pidFile := by
  cases ev with
  | tick =>
    simp only [step]
    by_cases hw : s.watching = true
    · rw [if_pos hw]
      rcases hk : s.dir.killFile with _ | c
      · rw [watcherTick_absent s hk]
      · rw [watcherTick_present s c hk]
    · rw [if_neg hw]
  | interrupt =>
    simp only [step]
    by_cases hl : s.listening = true
    · rw [if_pos hl]
      rfl
    · rw [if_neg hl]
  | stop => exact stopRecording_pidFile s.dir

theorem runEvents_pidFile (evs : List Event) (s : Session) :
    (runEvents evs s).dir.pidFile = s.dir.pidFile := by
  induction evs generalizing s with
  | nil => rfl
  | cons ev evs ih =>
    show (runEvents evs (step s ev)).dir.pidFile = s.dir.pidFile
    rw [ih, step_pidFile]

theorem launch_ok (output : String) (fps duration : Int) (env : Env) (d : Dir) (pid : Int)
    (hpipe : env.stdinPipe = none)
    (hstart : env.start "ffmpeg" (ffmpegArgs output fps duration) = Except.ok pid)
    (hreg : d.pidWriteErr = none) :
    launch output fps duration env d =
      (none, { dir := { d with pidFile := some (Itoa pid) },
               stdin := [], watching := true, listening := true }) := by
  simp [launch, hpipe, hstart, writePid, writePidFile, hreg]

/-- General form of the defect behind C3: whenever the worker was spawned and
registered and `cmd.Wait()` returns an error, `startRecording` returns that
error wrapped and the pid file still holds the worker's pid. -/
theorem startRecording_wait_error (output : String) (fps duration : Int) (env : Env)
    (d : Dir) (pid : Int) (e : GoError) (hpipe : env.stdinPipe = none)
    (hstart : env.start "ffmpeg" (ffmpegArgs output fps duration) = Except.ok pid)
    (hreg : d.pidWriteErr = none) (hwait : env.wait = some e) :
    (startRecording output fps duration env d).1 =
      some (GoError.Wrapped "ffmpeg exit error" e) ∧
    (startRecording output fps duration env d).2.dir.pidFile = some (Itoa pid) := by
  simp only [startRecording, launch_ok output fps duration env d pid hpipe hstart hreg,
    supervise, hwait]
  exact ⟨trivial, runEvents_pidFile _ _⟩

/-- C3 fails on the code: the worker (pid 4242) is spawned and registered in an
empty directory and exits with status 1; `startRecording` returns the wrapped
wait error and the pid file "4242" is still there. -/
theorem startRecording_exit_error_leaves_record :
    startRecording "out.mp4" 15 0
      { stdinPipe := none, start := fun _ _ => Except.ok 4242, running := [],
        wait := some (GoError.ExitError 1), settling := [] }
      { pidFile := none, killFile := none, pidWriteErr := none, killWriteErr := none } =
    (some (GoError.Wrapped "ffmpeg exit error" (GoError.ExitError 1)),
     { dir := { pidFile := some "4242", killFile := none, pidWriteErr := none,
                killWriteErr := none },
       stdin := [], watching := true, listening := true }) := by
  decide

theorem mem_startValueOpts (a : String) :
    a ∈ startValueOpts ↔ a = "-fps" ∨ a = "-duration" ∨ a = "-output" ∨ a = "--path" := by
  simp [startValueOpts]

theorem bg_not_value : "-bg" ∉ startValueOpts := by decide

theorem parseStartLoop_value_last (a : String) (o : StartOpts) (ha : a ∈ startValueOpts) :
    parseStartLoop [a] o = none := by
  rcases (mem_startValueOpts a).mp ha with h | h | h | h <;> subst h <;> rfl

theorem parseStartLoop_value (a v : String) (rest : List String) (o : StartOpts)
    (ha : a ∈ startValueOpts) :
    parseStartLoop (a :: v :: rest) o = parseStartLoop rest (applyValue a v o) := by
  rcases (mem_startValueOpts a).mp ha with h | h | h | h <;> subst h <;>
    simp [parseStartLoop, applyValue]

theorem parseStartLoop_bg (rest : List String) (o : StartOpts) :
    parseStartLoop ("-bg" :: rest) o = parseStartLoop rest { o with bg := true } := by
  cases rest <;> simp [parseStartLoop]

theorem parseStartLoop_other (a : String) (rest : List String) (o : StartOpts)
    (ha : a ∉ startValueOpts) (hb : a ≠ "-bg") :
    parseStartLoop (a :: rest) o = parseStartLoop rest o := by
  rw [mem_startValueOpts] at ha
  simp only [not_or] at ha
  obtain ⟨h1, h2, h3, h4⟩ := ha
  cases rest <;> simp [parseStartLoop, h1, h2, h3, h4, hb]

theorem optionPairs_value (a v : String) (rest : List String) (ha : a ∈ startValueOpts) :
    optionPairs (a :: v :: rest) = (optionPairs rest).map (fun ps => (a, v) :: ps) := by
  simp [optionPairs, ha]

theorem optionPairs_skip (a : String) (rest : List String) (ha : a ∉ startValueOpts) :
    optionPairs (a :: rest) = optionPairs rest := by
  cases rest <;> simp [optionPairs, ha]

theorem bgRequested_value (a v : String) (rest : List String) (ha : a ∈ startValueOpts) :
    bgRequested (a :: v :: rest) = bgRequested rest := by
  simp [bgRequested, ha]

theorem bgRequested_skip (a : String) (rest : List String) (ha : a ∉ startValueOpts) :
    bgRequested (a :: rest) = (decide (a = "-bg") || bgRequested rest) := by
  cases rest <;> simp [bgRequested, ha]

theorem expectedOpts_value (a v : String) (rest : List String) (o : StartOpts)
    (ps : List (String × String)) (ha : a ∈ startValueOpts) :
    expectedOpts (applyValue a v o) rest ps =
      expectedOpts o (a :: v :: rest) ((a, v) :: ps) := by
  simp only [expectedOpts, bgRequested_value a v rest ha, lastValue, flattenPairs]
  rcases (mem_startValueOpts a).mp ha with h | h | h | h <;> subst h <;>
    cases lastValue "-output" ps <;> cases lastValue "-fps" ps <;>
    cases lastValue "-duration" ps <;> cases lastValue "--path" ps <;>
    simp [applyValue]

theorem parseStartLoop_spec (n : Nat) (opts : List String) (o : StartOpts)
    (pairs : List (String × String)) (hn : opts.length ≤ n)
    (hp : optionPairs opts = some pairs) :
    parseStartLoop opts o = some (expectedOpts o opts pairs) := by
  induction n generalizing opts o pairs with
  | zero =>
    have : opts = [] := List.length_eq_zero.mp (Nat.le_zero.mp hn)
    subst this
    simp only [optionPairs, Option.some.injEq] at hp
    subst hp
    simp [parseStartLoop, expectedOpts, bgRequested, lastValue, flattenPairs]
  | succ n ih =>
    cases opts with
    | nil =>
      simp only [optionPairs, Option.some.injEq] at hp
      subst hp
      simp [parseStartLoop, expectedOpts, bgRequested, lastValue, flattenPairs]
    | cons a rest =>
      have hlen : rest.length ≤ n := by simpa using hn
      by_cases ha : a ∈ startValueOpts
      · cases rest with
        | nil => simp [optionPairs, ha] at hp
        | cons v rest2 =>
          rw [optionPairs_value a v rest2 ha] at hp
          rcases hps : optionPairs rest2 with _ | ps
          · rw [hps] at hp
            cases hp
          · rw [hps] at hp
            simp only [Option.map_some', Option.some.injEq] at hp
            subst hp
            rw [parseStartLoop_value a v rest2 o ha,
              ih rest2 (applyValue a v o) ps (by simp at hlen; omega) hps,
              expectedOpts_value a v rest2 o ps ha]
      · rw [optionPairs_skip a rest ha] at hp
        by_cases hb : a = "-bg"
        · subst hb
          rw [parseStartLoop_bg, ih rest _ pairs hlen hp]
          simp [expectedOpts, bgRequested_skip "-bg" rest ha]
        · rw [parseStartLoop_other a rest o ha hb, ih rest o pairs hlen hp]
          simp [expectedOpts, bgRequested_skip a rest ha, hb]

theorem optionPairs_keys (n : Nat) (opts : List String) (pairs : List (String × String))
    (hn : opts.length ≤ n) (hp : optionPairs opts = some pairs) :
    ∀ p ∈ pairs, p.1 ∈ startValueOpts := by
  induction n generalizing opts pairs with
  | zero =>
    have : opts = [] := List.length_eq_zero.mp (Nat.le_zero.mp hn)
    subst this
    simp only [optionPairs, Option.some.injEq] at hp
    subst hp
    intro p hmem
    cases hmem
  | succ n ih =>
    cases opts with
    | nil =>
      simp only [optionPairs, Option.some.injEq] at hp
      subst hp
      intro p hmem
      cases hmem
    | cons a rest =>
      have hlen : rest.length ≤ n := by simpa using hn
      by_cases ha : a ∈ startValueOpts
      · cases rest with
        | nil => simp [optionPairs, ha] at hp
        | cons v rest2 =>
          rw [optionPairs_value a v rest2 ha] at hp
          rcases hps : optionPairs rest2 with _ | ps
          · rw [hps] at hp
            cases hp
          · rw [hps] at hp
            simp only [Option.map_some', Option.some.injEq] at hp
            subst hp
            intro p hmem
            rcases List.mem_cons.mp hmem with rfl | hmem
            · exact ha
            · exact ih rest2 ps (by simp at hlen; omega) hps p hmem
      · rw [optionPairs_skip a rest ha] at hp
        exact ih rest pairs hlen hp

theorem optionPairs_flatten (pairs : List (String × String))
    (h : ∀ p ∈ pairs, p.1 ∈ startValueOpts) :
    optionPairs (flattenPairs pairs) = some pairs := by
  induction pairs with
  | nil => rfl
  | cons p ps ih =>
    obtain ⟨a, v⟩ := p
    have ha : a ∈ startValueOpts := h (a, v) (List.mem_cons_self _ _)
    simp only [flattenPairs]
    rw [optionPairs_value a v _ ha, ih (fun q hq => h q (List.mem_cons_of_mem _ hq))]
    rfl

theorem bgRequested_flatten (pairs : List (String × String))
    (h : ∀ p ∈ pairs, p.1 ∈ startValueOpts) :
    bgRequested (flattenPairs pairs) = false := by
  induction pairs with
  | nil => rfl
  | cons p ps ih =>
    obtain ⟨a, v⟩ := p
    have ha : a ∈ startValueOpts := h (a, v) (List.mem_cons_self _ _)
    simp only [flattenPairs]
    rw [bgRequested_value a v _ ha, ih (fun q hq => h q (List.mem_cons_of_mem _ hq))]

theorem FollowedByValue_tail (a : String) (rest : List String)
    (h : FollowedByValue (a :: rest)) : FollowedByValue rest := by
  intro i b hb hmem
  have := h (i + 1) b (by simpa using hb) hmem
  simpa using this

/-- The literal reading of "every value-taking option is followed by a value"
is covered: if every occurrence of such an option has a successor, the
argument list has its option/value pairs. -/
theorem optionPairs_of_FollowedByValue (n : Nat) (opts : List String)
    (hn : opts.length ≤ n) (h : FollowedByValue opts) :
    ∃ pairs, optionPairs opts = some pairs := by
  induction n generalizing opts with
  | zero =>
    have : opts = [] := List.length_eq_zero.mp (Nat.le_zero.mp hn)
    subst this
    exact ⟨[], rfl⟩
  | succ n ih =>
    cases opts with
    | nil => exact ⟨[], rfl⟩
    | cons a rest =>
      have hrest := FollowedByValue_tail a rest h
      have hlen : rest.length ≤ n := by simpa using hn
      by_cases ha : a ∈ startValueOpts
      · cases rest with
        | nil =>
          have := h 0 a rfl ha
          simp at this
        | cons v rest2 =>
          obtain ⟨ps, hps⟩ := ih rest2 (by simp at hlen; omega)
            (FollowedByValue_tail v rest2 hrest)
          exact ⟨(a, v) :: ps, by rw [optionPairs_value a v rest2 ha, hps]; rfl⟩
      · rw [optionPairs_skip a rest ha]
        exact ih rest hlen hrest

/-- C7: for a `start` command line in which every value-taking option is
followed by a value, with `pairs` its recognized option/value pairs in order:
option parsing succeeds and sets each of fps, duration, output and path to the
last value given for it (default otherwise) and bg to whether `-bg` was given;
the command line of the detached copy is the program name, "start" and exactly
those pairs in order, so every recognized option is passed through and `-bg`
does not occur in it as an option; parsing that command line with the same
parser gives the same fps, duration, output, path and re-exec list, and
background = false. -/
theorem reexec_roundtrip (prog : String) (opts : List String)
    (pairs : List (String × String)) (h : optionPairs opts = some pairs) :
    ∃ o o2, parseStart (prog :: "start" :: opts) = some o ∧
      reexecArgv prog o = prog :: "start" :: flattenPairs pairs ∧
      bgRequested (flattenPairs pairs) = false ∧
      o.fps = ((lastValue "-fps" pairs).map (fun v => (Atoi v).1)).getD 15 ∧
      o.duration = ((lastValue "-duration" pairs).map (fun v => (Atoi v).1)).getD 0 ∧
      o.output = (lastValue "-output" pairs).getD "screen.mp4" ∧
      o.path = (lastValue "--path" pairs).getD "." ∧
      o.bg = bgRequested opts ∧
      parseStart (reexecArgv prog o) = some o2 ∧
      o2.fps = o.fps ∧ o2.duration = o.duration ∧ o2.output = o.output ∧
      o2.path = o.path ∧ o2.reexecArgs = o.reexecArgs ∧ o2.bg = false := by
  have hkeys := optionPairs_keys opts.length opts pairs (Nat.le_refl _) h
  have h1 := parseStartLoop_spec opts.length opts initStartOpts pairs (Nat.le_refl _) h
  have h2 := parseStartLoop_spec (flattenPairs pairs).length (flattenPairs pairs)
    initStartOpts pairs (Nat.le_refl _) (optionPairs_flatten pairs hkeys)
  have hbg := bgRequested_flatten pairs hkeys
  refine ⟨expectedOpts initStartOpts opts pairs,
    expectedOpts initStartOpts (flattenPairs pairs) pairs, h1, rfl, hbg, rfl, rfl, rfl, rfl,
    by simp [expectedOpts, initStartOpts], ?_, rfl, rfl, rfl, rfl, rfl, ?_⟩
  · exact h2
  · simp [expectedOpts, initStartOpts, hbg]

/-- Witness of `reexec_roundtrip`: `rec start -bg -fps 30 -output -bg`, where
the second `-bg` is the value of `-output`. -/
theorem reexec_roundtrip_witness :
    ∃ o o2, parseStart ["rec", "start", "-bg", "-fps", "30", "-output", "-bg"] = some o ∧
      reexecArgv "rec" o = ["rec", "start", "-fps", "30", "-output", "-bg"] ∧
      bgRequested ["-fps", "30", "-output", "-bg"] = false ∧
      o.fps = 30 ∧ o.duration = 0 ∧ o.output = "-bg" ∧ o.path = "." ∧ o.bg = true ∧
      parseStart (reexecArgv "rec" o) = some o2 ∧
      o2.fps = o.fps ∧ o2.duration = o.duration ∧ o2.output = o.output ∧
      o2.path = o.path ∧ o2.reexecArgs = o.reexecArgs ∧ o2.bg = false :=
  reexec_roundtrip "rec" ["-bg", "-fps", "30", "-output", "-bg"]
    [("-fps", "30"), ("-output", "-bg")] (by decide)

/-- C8 fails on the code: with a value-taking option as the last argument the
option loop indexes `os.Args` past its end; the run ends in the run-time
failure (exit status 2), not in exit code 0 or 1.  Shown for `start -fps`,
`start -bg --path` and `stop --path`. -/
theorem main_value_option_last (env : MainEnv) (fs : String → Dir) :
    (main ["rec", "start", "-fps"] env fs).1 = Outcome.indexOutOfRange ∧
    (main ["rec", "start", "-bg", "--path"] env fs).1 = Outcome.indexOutOfRange ∧
    (main ["rec", "stop", "--path"] env fs).1 = Outcome.indexOutOfRange ∧
    (main ["rec", "start", "-fps"] env fs).1.status = 2 ∧
    (main ["rec", "stop", "--path"] env fs).1.status = 2 := by
  refine ⟨rfl, rfl, rfl, rfl, rfl⟩

theorem main_status (osArgs : List String) (env : MainEnv) (fs : String → Dir) :
    (main osArgs env fs).1 = Outcome.indexOutOfRange ∨ (main osArgs env fs).1.status ≤ 1 := by
  unfold main
  split
  · exact Or.inr (Nat.le_refl 1)
  · exact Or.inr (Nat.le_refl 1)
  · split_ifs
    · split
      · exact Or.inl rfl
      · split_ifs
        · split
          · exact Or.inr (Nat.le_refl 1)
          · exact Or.inr (Nat.zero_le 1)
        · split
          · exact Or.inr (Nat.le_refl 1)
          · exact Or.inr (Nat.zero_le 1)
    · split
      · exact Or.inl rfl
      · split
        · exact Or.inr (Nat.le_refl 1)
        · exact Or.inr (Nat.zero_le 1)
    · exact Or.inr (Nat.le_refl 1)

end Recorder
